import Mathlib

/-!
Verification of the shared CloudStack reconciliation core
(`cs_ip_address.py`, `cs_loadbalancer_rule.py`, `cs_template.py`).

The Python code is shallowly embedded: the scalar values flowing through
`module.params` and API records become `PyVal`, dictionaries become
association lists, the mutating remote calls become an explicit `ApiCall`
trace, and `fail_json` / uncaught exceptions become `Except.error`.
-/

namespace CloudStack

instance instDecEqExcept {ε α : Type} [DecidableEq ε] [DecidableEq α] :
    DecidableEq (Except ε α) := fun a b =>
  match a, b with
  | .ok x, .ok y =>
    if h : x = y then isTrue (by rw [h]) else isFalse (fun hc => by cases hc; exact h rfl)
  | .error x, .error y =>
    if h : x = y then isTrue (by rw [h]) else isFalse (fun hc => by cases hc; exact h rfl)
  | .ok _, .error _ => isFalse (fun hc => by cases hc)
  | .error _, .ok _ => isFalse (fun hc => by cases hc)

/-- Scalar Python values appearing in `module.params` and API records.
Python `bool` is a subclass of `int`, which matters for `isinstance`
checks and for `==`. -/
inductive PyVal where
  | none
  | bool (b : Bool)
  | int (n : Int)
  | str (s : String)
deriving DecidableEq, Repr

/-- A Python dict with string keys, in insertion order. -/
abbrev Dict := List (String × PyVal)

/-- `d[k]` as an option: `some v` when the key is present. -/
def lookup : Dict → String → Option PyVal
  | [], _ => Option.none
  | (k₀, v₀) :: t, k => if k₀ = k then some v₀ else lookup t k

/-- `d[k] = v`: replace the first binding of `k` in place, append if absent. -/
def setKey : Dict → String → PyVal → Dict
  | [], k, v => [(k, v)]
  | (k₀, v₀) :: t, k, v => if k₀ = k then (k₀, v) :: t else (k₀, v₀) :: setKey t k v

/-- The numeric view Python `==` uses: ints and bools are comparable numbers. -/
def PyVal.asNum : PyVal → Option Int
  | .int n => some n
  | .bool b => some (if b then 1 else 0)
  | _ => Option.none

/-- Python `==` on the embedded scalar values (`True == 1`, `"1" != 1`). -/
def pyEq (a b : PyVal) : Bool :=
  match a.asNum, b.asNum with
  | some m, some n => m == n
  | _, _ =>
    match a, b with
    | .str s, .str t => s == t
    | .none, .none => true
    | _, _ => false

/-- Python truthiness of a scalar value. -/
def pyTruthy : PyVal → Bool
  | .none => false
  | .bool b => b
  | .int n => n != 0
  | .str s => s != ""

/-- Decimal digits accumulated left to right; `Option.none` on a non-digit. -/
def parseDigitsAux : List Char → Nat → Option Nat
  | [], acc => some acc
  | c :: r, acc =>
    if 48 ≤ c.toNat ∧ c.toNat ≤ 57 then parseDigitsAux r (acc * 10 + (c.toNat - 48))
    else Option.none

/-- `int(s)` on a decimal string: optional leading minus then digits,
`ValueError` (`Option.none`) otherwise. -/
def pyStrToInt (s : String) : Option Int :=
  match s.data with
  | [] => Option.none
  | '-' :: rest =>
    if rest = [] then Option.none else (parseDigitsAux rest 0).map (fun n => -(n : Int))
  | l => (parseDigitsAux l 0).map (fun n => (n : Int))

/-- Python `int(x)`: identity on ints, 0/1 on bools, parse for strings
(`ValueError` = `Option.none`), `TypeError` on `None`. -/
def pyIntCast : PyVal → Option Int
  | .int n => some n
  | .bool b => some (if b then 1 else 0)
  | .str s => pyStrToInt s
  | .none => Option.none

/-- Python `str(x)`. -/
def pyStrCast : PyVal → String
  | .int n => toString n
  | .bool b => if b then "True" else "False"
  | .str s => s
  | .none => "None"

/-- `isinstance(v, int)` — true for bools as well. -/
def isinstInt : PyVal → Bool
  | .int _ => true
  | .bool _ => true
  | _ => false

/-- `isinstance(v, str)`. -/
def isinstStr : PyVal → Bool
  | .str _ => true
  | _ => false

/-- The write-back `has_changed` performs on `current_dict[key]`:
`int(current)` when the desired value is an int, `str(current)` when a
str, untouched otherwise.  `Option.none` is the `ValueError`/`TypeError`
raised by a failing `int()`. -/
def coerceCurrent (value cur : PyVal) : Option PyVal :=
  if isinstInt value then (pyIntCast cur).map PyVal.int
  else if isinstStr value then some (.str (pyStrCast cur))
  else some cur

/-- `AnsibleCloudStack.has_changed(want_dict, current_dict, only_keys)`.
`only_keys = []` models the falsy `None`/`[]` filter.  Returns the boolean
together with the (mutated-in-place) current dict; `Except.error` is an
uncaught `int()` conversion error. -/
def has_changed (want : List (String × PyVal)) (current : Dict)
    (only_keys : List String) : Except String (Bool × Dict) :=
  match want with
  | [] => .ok (false, current)
  | (k, v) :: rest =>
    if only_keys ≠ [] ∧ k ∉ only_keys then has_changed rest current only_keys
    else if v = PyVal.none then has_changed rest current only_keys
    else
      match lookup current k with
      | some cur =>
        match coerceCurrent v cur with
        | some c =>
          if pyEq v c then has_changed rest (setKey current k c) only_keys
          else .ok (true, setKey current k c)
        | Option.none => .error "ValueError: invalid literal for int"
      | Option.none => has_changed rest current only_keys

/-- One desired field differs from the observed record after the coercion
`has_changed` applies, the field passing the `only_keys` filter. -/
def wantKeyDiffers (current : Dict) (only_keys : List String)
    (k : String) (v : PyVal) : Bool :=
  (decide (only_keys = []) || decide (k ∈ only_keys)) &&
  decide (v ≠ PyVal.none) &&
  (match lookup current k with
   | some cur =>
     match coerceCurrent v cur with
     | some c => ! pyEq v c
     | Option.none => false
   | Option.none => false)

/-- A CloudStack tag: a (key, value) pair; membership is exact pair
equality. -/
abbrev Tag := String × String

/-- The mutating remote API calls the embedded operations can issue. -/
inductive ApiCall where
  | createTags (tags : List Tag)
  | deleteTags (tags : List Tag)
  | assignToLoadBalancerRule (vmIds : List String)
  | removeFromLoadBalancerRule (vmIds : List String)
  | createLoadBalancerRule
  | updateLoadBalancerRule
  | deleteLoadBalancerRule
  | deleteTemplate
  | disassociateIpAddress
  | associateIpAddress
deriving DecidableEq, Repr

/-- `self.result = {'changed': False}` in `AnsibleCloudStack.__init__`. -/
def init_result_changed : Bool := false

/-- A call that adds entries to a remote collection (tag create, member
assign). -/
def isAddCall : ApiCall → Bool
  | .createTags _ => true
  | .assignToLoadBalancerRule _ => true
  | _ => false

/-- A call that removes entries from a remote collection (tag delete,
member remove). -/
def isRemoveCall : ApiCall → Bool
  | .deleteTags _ => true
  | .removeFromLoadBalancerRule _ => true
  | _ => false

/-- Every call satisfying `p` is issued strictly before every call
satisfying `q` in the trace. -/
def callsPhaseOrdered (p q : ApiCall → Bool) (t : List ApiCall) : Prop :=
  ∀ i j : Fin t.length, p (t.get i) = true → q (t.get j) = true → (i : ℕ) < j

/-- All remove-type calls are issued before any add-type call. -/
def removesBeforeAdds (t : List ApiCall) : Prop :=
  callsPhaseOrdered isRemoveCall isAddCall t

/-- All add-type calls are issued before any remove-type call. -/
def addsBeforeRemoves (t : List ApiCall) : Prop :=
  callsPhaseOrdered isAddCall isRemoveCall t

/-- Some desired field of `want` differs from `current` in the sense of
`wantKeyDiffers`. -/
def wantDiffersIn (want : List (String × PyVal)) (current : Dict)
    (ks : List String) : Prop :=
  ∃ kv ∈ want, wantKeyDiffers current ks kv.1 kv.2 = true

instance (want : List (String × PyVal)) (current : Dict) (ks : List String) :
    Decidable (wantDiffersIn want current ks) := by
  unfold wantDiffersIn
  infer_instance

/-- `_tags_that_should_exist_or_be_updated(resource, tags)`: the desired
tags not already in `get_tags(resource)`. -/
def tags_that_should_exist_or_be_updated (existing_tags tags : List Tag) :
    List Tag :=
  tags.filter (fun tag => decide (tag ∉ existing_tags))

/-- `_tags_that_should_not_exist(resource, tags)`: the existing tags not
in the desired list. -/
def tags_that_should_not_exist (existing_tags tags : List Tag) : List Tag :=
  existing_tags.filter (fun tag => decide (tag ∉ tags))

/-- `present_members`: `list(set(existing) - set(wanted))`, modeled as a
list with set-membership semantics (the Python set drops duplicates and
order). -/
def member_ids_to_remove (wanted_ids existing_ids : List String) :
    List String :=
  existing_ids.filter (fun i => decide (i ∉ wanted_ids))

/-- `present_members`: `list(set(wanted) - set(existing))`. -/
def member_ids_to_assign (wanted_ids existing_ids : List String) :
    List String :=
  wanted_ids.filter (fun i => decide (i ∉ existing_ids))

/-- `_process_tags(resource, resource_type, tags, operation)` from
`cs_ip_address.py`: a non-empty tag list marks `changed` and, outside
check mode, issues one `createTags`/`deleteTags` call (whose async result
is then polled); an empty list is a no-op. -/
def process_tags (check_mode changed : Bool) (tags : List Tag)
    (operation : String) : Bool × List ApiCall :=
  if tags ≠ [] then
    (true,
      if check_mode then []
      else if operation = "create" then [ApiCall.createTags tags]
      else [ApiCall.deleteTags tags])
  else (changed, [])

/-- `ensure_tags(resource, resource_type)` on a resource carrying a `tags`
key: delete the tags that should not exist, then create the missing ones.
`existing` is the (cached) `get_tags(resource)` result both helpers
consult. -/
def ensure_tags_calls (check_mode changed : Bool) (resource : Dict)
    (existing : List Tag) (tagsParam : Option (List Tag)) :
    Bool × List ApiCall :=
  if (lookup resource "tags").isSome then
    match tagsParam with
    | some tags =>
      let s₁ := process_tags check_mode changed
        (tags_that_should_not_exist existing tags) "delete"
      let s₂ := process_tags check_mode s₁.1
        (tags_that_should_exist_or_be_updated existing tags) "create"
      (s₂.1, s₁.2 ++ s₂.2)
    | Option.none => (changed, [])
  else (changed, [])

/-- `present_members(rule)` with member names already resolved to ids:
the assign block runs first, the remove block second, and neither
consults `check_mode` (the parameter mirrors `self.module.check_mode`,
which the source never reads here). -/
def present_members_calls (check_mode changed : Bool)
    (wanted_ids : Option (List String)) (existing_ids : List String) :
    Bool × List ApiCall :=
  match wanted_ids with
  | Option.none => (changed, [])
  | some wanted =>
    let toRemove := member_ids_to_remove wanted existing_ids
    let toAssign := member_ids_to_assign wanted existing_ids
    let s₁ : Bool × List ApiCall :=
      if toAssign ≠ [] then (true, [ApiCall.assignToLoadBalancerRule toAssign])
      else (changed, [])
    let s₂ : Bool × List ApiCall :=
      if toRemove ≠ [] then (true, [ApiCall.removeFromLoadBalancerRule toRemove])
      else (s₁.1, [])
    (s₂.1, s₁.2 ++ s₂.2)

/-- `_create_lb_rule(rule)`: marks changed unconditionally and issues the
create call outside check mode. -/
def create_lb_rule_calls (check_mode changed : Bool) : Bool × List ApiCall :=
  (true, if check_mode then [] else [ApiCall.createLoadBalancerRule])

/-- `_update_lb_rule(rule)`: builds `{id, algorithm, description}` and
runs `has_changed` against the found rule (mutating it in place); on a
difference marks changed and issues the update outside check mode. -/
def update_lb_rule_calls (check_mode changed : Bool)
    (algorithm description : PyVal) (rule : Dict) :
    Bool × List ApiCall × Except String Dict :=
  match lookup rule "id" with
  | Option.none => (changed, [], .error "KeyError: id")
  | some idv =>
    match has_changed
        [("id", idv), ("algorithm", algorithm), ("description", description)]
        rule [] with
    | .error e => (changed, [], .error e)
    | .ok (true, rule') =>
      (true, (if check_mode then [] else [ApiCall.updateLoadBalancerRule]),
        .ok rule')
    | .ok (false, rule') => (changed, [], .ok rule')

/-- `absent_lb_rule()` with the `get_rule` lookup already performed
(`Option.none` = no rule matched the discriminating key): a found rule
marks changed and is deleted outside check mode; a missing rule is
returned unchanged with no call. -/
def absent_lb_rule_calls (check_mode changed : Bool) (rule : Option Dict) :
    Bool × List ApiCall × Option Dict :=
  match rule with
  | Option.none => (changed, [], Option.none)
  | some r =>
    (true, (if check_mode then [] else [ApiCall.deleteLoadBalancerRule]), some r)

/-- `remove_template()` with `get_template()` already evaluated. -/
def remove_template_calls (check_mode changed : Bool)
    (template : Option Dict) : Bool × List ApiCall × Option Dict :=
  match template with
  | Option.none => (changed, [], Option.none)
  | some t =>
    (true, (if check_mode then [] else [ApiCall.deleteTemplate]), some t)

/-- `associate_ip_address()`: marks changed unconditionally and issues the
associate call outside check mode. -/
def associate_ip_address_calls (check_mode changed : Bool) :
    Bool × List ApiCall :=
  (true, if check_mode then [] else [ApiCall.associateIpAddress])

/-- A Python object position that can hold `None`, a scalar, or a dict. -/
inductive PyObj where
  | none
  | val (v : PyVal)
  | dict (d : Dict)
deriving DecidableEq, Repr

/-- Truthiness of an optional string parameter (`None` and `""` are
falsy). -/
def strTruthy : Option String → Bool
  | some s => s != ""
  | Option.none => false

/-- `AnsibleCloudStack._get_by_key(key, my_dict)` from `cs_ip_address.py`:
a `None` dict defaults to `{}`; a truthy key returns the entry or
`fail_json`s; otherwise the dict itself is returned — never Python
`None`. -/
def get_by_key (key : Option String) (my_dict : Option Dict) :
    Except String PyObj :=
  let d := my_dict.getD []
  if strTruthy key then
    match lookup d (key.getD "") with
    | some v => .ok (.val v)
    | Option.none =>
      .error ("Something went wrong: " ++ key.getD "" ++ " not found")
  else .ok (.dict d)

/-- `AnsibleCloudStackIPAddress.get_ip_address(key)` on a fresh run
(`self.ip_address` still `None`).  Unlike the base-class version it does
not fail on an empty listing: the cache stays `None` and `_get_by_key`
substitutes its `{}` default.  `listing = Option.none` models a falsy
`listPublicIpAddresses` response; an empty list inside a truthy response
would raise on `[0]`. -/
def ipaddr_get_ip_address (key : Option String) (ipParam : Option String)
    (listing : Option (List Dict)) : Except String PyObj :=
  if strTruthy ipParam then
    match listing with
    | some l =>
      match l.head? with
      | some d => get_by_key key (some d)
      | Option.none => .error "IndexError: list index out of range"
    | Option.none => get_by_key key Option.none
  else .error "IP address param ip_address is required"

/-- `disassociate_ip_address()`, the absent branch of the IP address
module: look up the address, return unchanged if it `is None`, fail on a
static-NAT address, else mark changed and disassociate outside check
mode.  Subscripting a non-dict or a missing `isstaticnat` key raises. -/
def disassociate_ip_address_calls (check_mode changed : Bool)
    (ipParam : Option String) (listing : Option (List Dict)) :
    Bool × List ApiCall × Except String PyObj :=
  match ipaddr_get_ip_address Option.none ipParam listing with
  | .error m => (changed, [], .error m)
  | .ok PyObj.none => (changed, [], .ok PyObj.none)
  | .ok (PyObj.val _) => (changed, [], .error "TypeError: value is not subscriptable")
  | .ok (PyObj.dict d) =>
    match lookup d "isstaticnat" with
    | Option.none => (changed, [], .error "KeyError: isstaticnat")
    | some v =>
      if pyTruthy v then
        (changed, [], .error "IP address is allocated via static nat")
      else
        (true, (if check_mode then [] else [ApiCall.disassociateIpAddress]),
          .ok (PyObj.dict d))

/-- One `queryAsyncJobResult` response; `jobresult = Option.none` models a
response without the `jobresult` key. -/
structure JobResponse where
  jobstatus : Int
  jobresult : Option Dict
deriving DecidableEq, Repr

/-- The value `poll_job` returns: a submit record, or the sub-object
extracted under the requested key. -/
inductive PollOut where
  | dict (d : Dict)
  | val (v : PyVal)
deriving DecidableEq, Repr

/-- The loop breaks on a response with non-zero `jobstatus` that carries a
`jobresult`. -/
def isTerminal (r : JobResponse) : Bool :=
  decide (r.jobstatus ≠ 0) && r.jobresult.isSome

/-- The loop body on the terminal response: `fail_json` when `errortext`
is present in the job result (the message carries `str(errortext)`),
otherwise replace `job` by `res[jobresult][key]` when a truthy key was
requested and present — and keep the original `job` otherwise. -/
def poll_job_terminal (job : Dict) (key : Option String) (jr : Dict) :
    Except String PollOut :=
  match lookup jr "errortext" with
  | some e => .error (pyStrCast e)
  | Option.none =>
    if strTruthy key then
      match lookup jr (key.getD "") with
      | some v => .ok (.val v)
      | Option.none => .ok (.dict job)
    else .ok (.dict job)

/-- The polling loop over the modeled response sequence.  Returns the
outcome (`Option.none` when every modeled response was non-terminal and
the source would still be looping) and the number of `queryAsyncJobResult`
calls issued. -/
def poll_job_loop (job : Dict) (key : Option String) :
    List JobResponse → Option (Except String PollOut) × Nat
  | [] => (Option.none, 0)
  | r :: rest =>
    match r.jobresult with
    | some jr =>
      if r.jobstatus ≠ 0 then (some (poll_job_terminal job key jr), 1)
      else
        let s := poll_job_loop job key rest
        (s.1, s.2 + 1)
    | Option.none =>
      let s := poll_job_loop job key rest
      (s.1, s.2 + 1)

/-- `AnsibleCloudStack.poll_job(job, key)`: a submit record without a
`jobid` is returned unchanged with no status query. -/
def poll_job (job : Dict) (key : Option String)
    (responses : List JobResponse) : Option (Except String PollOut) × Nat :=
  if (lookup job "jobid").isSome then poll_job_loop job key responses
  else (some (.ok (.dict job)), 0)

/-- The per-run lookup caches of `AnsibleCloudStack` the claims touch. -/
structure LookupCtx where
  zone : Option Dict
  os_type : Option Dict
deriving DecidableEq, Repr

/-- The fresh caches `__init__` leaves behind. -/
def initCtx : LookupCtx := ⟨Option.none, Option.none⟩

/-- `param in [d[f], ...]` membership test for one field of a record. -/
def fieldMatches (d : Dict) (f : String) (p : String) : Bool :=
  match lookup d f with
  | some v => pyEq v (.str p)
  | Option.none => false

/-- `get_zone(key)`: a cached zone short-circuits; otherwise one
`listZones` query is issued, the first zone is the documented default
when no param was given, and a param is matched against name or id. -/
def get_zone (key : Option String) (zoneParam : Option String)
    (zonesResp : Option (List Dict)) (ctx : LookupCtx) :
    LookupCtx × Except String PyObj × Nat :=
  match ctx.zone with
  | some z => (ctx, get_by_key key (some z), 0)
  | Option.none =>
    if strTruthy zoneParam then
      match zonesResp with
      | some zs =>
        match zs.find? (fun z =>
            fieldMatches z "name" (zoneParam.getD "") ||
            fieldMatches z "id" (zoneParam.getD "")) with
        | some z => ({ ctx with zone := some z }, get_by_key key (some z), 1)
        | Option.none => (ctx, .error "zone not found", 1)
      | Option.none => (ctx, .error "zone not found", 1)
    else
      match zonesResp.bind List.head? with
      | some z => ({ ctx with zone := some z }, get_by_key key (some z), 1)
      | Option.none => (ctx, .error "KeyError: zone", 1)

/-- `get_os_type(key)`: on a cache hit the source returns
`self._get_by_key(key, self.zone)` — the zone cache, not the cached OS
type; on a miss it lists OS types once and matches description or id. -/
def get_os_type (key : Option String) (osParam : Option String)
    (osResp : Option (List Dict)) (ctx : LookupCtx) :
    LookupCtx × Except String PyObj × Nat :=
  match ctx.os_type with
  | some _ => (ctx, get_by_key key ctx.zone, 0)
  | Option.none =>
    if strTruthy osParam then
      match osResp with
      | some os =>
        match os.find? (fun o =>
            fieldMatches o "description" (osParam.getD "") ||
            fieldMatches o "id" (osParam.getD "")) with
        | some o => ({ ctx with os_type := some o }, get_by_key key (some o), 1)
        | Option.none => (ctx, .error "OS type not found", 1)
      | Option.none => (ctx, .error "OS type not found", 1)
    else (ctx, .ok PyObj.none, 0)

/-- Python `str.lower()` on one ASCII character. -/
def pyCharLower (c : Char) : Char :=
  if 65 <= c.toNat && c.toNat <= 90 then Char.ofNat (c.toNat + 32) else c

/-- Python `str.lower()` (the identifiers involved are ASCII). -/
def pyStrLower (s : String) : String :=
  String.mk (s.data.map pyCharLower)

/-- `d['path'].lower()` compared with the requested name and its
root-prefixed forms (`cs_ip_address.py` line 410). -/
def domainPathMatches (requested : String) (d : Dict) : Bool :=
  match lookup d "path" with
  | some (PyVal.str p) =>
    pyStrLower p == pyStrLower requested ||
    pyStrLower p == "root/" ++ pyStrLower requested ||
    pyStrLower p == "root" ++ pyStrLower requested
  | _ => false

/-- `get_domain(key)` on a fresh run (`self.domain` still `None`): list
all domains once and return the first path match, `fail_json` when none
matches.  Also returns the cache it would leave behind. -/
def get_domain (key : Option String) (domainParam : Option String)
    (domainsResp : Option (List Dict)) : Except String PyObj × Option Dict :=
  if strTruthy domainParam then
    match domainsResp with
    | some ds =>
      match ds.find? (domainPathMatches (domainParam.getD "")) with
      | some d => (get_by_key key (some d), some d)
      | Option.none =>
        (.error ("Domain not found: " ++ domainParam.getD ""), Option.none)
    | Option.none =>
      (.error ("Domain not found: " ++ domainParam.getD ""), Option.none)
  else (.ok PyObj.none, Option.none)

instance (p q : ApiCall → Bool) (t : List ApiCall) :
    Decidable (callsPhaseOrdered p q t) := by
  unfold callsPhaseOrdered
  infer_instance

instance (t : List ApiCall) : Decidable (removesBeforeAdds t) := by
  unfold removesBeforeAdds
  infer_instance

instance (t : List ApiCall) : Decidable (addsBeforeRemoves t) := by
  unfold addsBeforeRemoves
  infer_instance

/-- The OS type record used to exercise the memoization claim. -/
def osTypeRec : Dict :=
  [("id", PyVal.str "os1"), ("description", PyVal.str "Ubuntu")]

/-- First `get_os_type` resolution on fresh caches. -/
def osTypeRun₁ : LookupCtx × Except String PyObj × Nat :=
  get_os_type Option.none (some "Ubuntu") (some [osTypeRec]) initCtx

/-- Second `get_os_type` resolution, on the caches the first one left. -/
def osTypeRun₂ : LookupCtx × Except String PyObj × Nat :=
  get_os_type Option.none (some "Ubuntu") (some [osTypeRec]) osTypeRun₁.1

/-- The zone record used for the working half of the memoization claim. -/
def zoneRec : Dict :=
  [("id", PyVal.str "z1"), ("name", PyVal.str "ch-gva-2")]

/-- First `get_zone` resolution on fresh caches. -/
def zoneRun₁ : LookupCtx × Except String PyObj × Nat :=
  get_zone Option.none (some "ch-gva-2") (some [zoneRec]) initCtx

/-- Second `get_zone` resolution, on the caches the first one left. -/
def zoneRun₂ : LookupCtx × Except String PyObj × Nat :=
  get_zone Option.none (some "ch-gva-2") (some [zoneRec]) zoneRun₁.1

/-- A domain record whose path matches the request `dev` (upper case). -/
def domA : Dict := [("id", PyVal.str "d1"), ("path", PyVal.str "ROOT/dev")]

/-- A second domain record whose path also matches the request `dev`. -/
def domB : Dict := [("id", PyVal.str "d2"), ("path", PyVal.str "root/dev")]

/-- A domain record that does not match the request `dev`. -/
def domC : Dict := [("id", PyVal.str "d0"), ("path", PyVal.str "root/prod")]

lemma lookup_setKey_ne (d : Dict) (k k' : String) (v : PyVal) (h : k' ≠ k) :
    lookup (setKey d k v) k' = lookup d k' := by
  induction d with
  | nil => simp [setKey, lookup, Ne.symm h]
  | cons hd t ih =>
    obtain ⟨k₀, v₀⟩ := hd
    by_cases hk : k₀ = k
    · subst hk
      simp [setKey, lookup, Ne.symm h]
    · simp only [setKey, if_neg hk, lookup]
      split
      · rfl
      · exact ih

lemma lookup_setKey_self (d : Dict) (k : String) (v : PyVal) :
    lookup (setKey d k v) k = some v := by
  induction d with
  | nil => simp [setKey, lookup]
  | cons hd t ih =>
    obtain ⟨k₀, v₀⟩ := hd
    by_cases hk : k₀ = k
    · subst hk
      simp [setKey, lookup]
    · simp only [setKey, if_neg hk, lookup, if_neg hk, ih]

/-- Keys outside `want` are untouched by `has_changed`: every write it
performs targets a key of `want`. -/
lemma has_changed_frame (want : List (String × PyVal)) :
    ∀ (current : Dict) (ks : List String) (b : Bool) (d' : Dict),
      has_changed want current ks = .ok (b, d') →
      ∀ k, k ∉ want.map Prod.fst → lookup d' k = lookup current k := by
  induction want with
  | nil =>
    intro current ks b d' h k _
    simp only [has_changed, Except.ok.injEq, Prod.mk.injEq] at h
    rw [h.2]
  | cons hd rest ih =>
    obtain ⟨k₀, v⟩ := hd
    intro current ks b d' h k hk
    simp only [List.map_cons, List.mem_cons] at hk
    push_neg at hk
    simp only [has_changed] at h
    split at h
    · exact ih current ks b d' h k hk.2
    · split at h
      · exact ih current ks b d' h k hk.2
      · split at h
        · rename_i cur _
          split at h
          · rename_i c _
            split at h
            · rw [ih (setKey current k₀ c) ks b d' h k hk.2,
                lookup_setKey_ne _ _ _ _ hk.1]
            · simp only [Except.ok.injEq, Prod.mk.injEq] at h
              rw [← h.2, lookup_setKey_ne _ _ _ _ hk.1]
          · exact absurd h (by simp)
        · exact ih current ks b d' h k hk.2

lemma wantDiffersIn_nil (current : Dict) (ks : List String) :
    ¬ wantDiffersIn [] current ks := by
  simp [wantDiffersIn]

lemma wantDiffersIn_cons (k : String) (v : PyVal)
    (rest : List (String × PyVal)) (current : Dict) (ks : List String) :
    wantDiffersIn ((k, v) :: rest) current ks ↔
      wantKeyDiffers current ks k v = true ∨ wantDiffersIn rest current ks := by
  simp [wantDiffersIn]

lemma wantKeyDiffers_congr (current current' : Dict) (ks : List String)
    (k : String) (v : PyVal) (h : lookup current' k = lookup current k) :
    wantKeyDiffers current' ks k v = wantKeyDiffers current ks k v := by
  simp [wantKeyDiffers, h]

lemma wantDiffersIn_congr (rest : List (String × PyVal))
    (current current' : Dict) (ks : List String)
    (h : ∀ kv ∈ rest, lookup current' kv.1 = lookup current kv.1) :
    (wantDiffersIn rest current' ks ↔ wantDiffersIn rest current ks) := by
  constructor
  · rintro ⟨kv, hm, hp⟩
    exact ⟨kv, hm, by rw [← wantKeyDiffers_congr current current' ks kv.1 kv.2 (h kv hm)]; exact hp⟩
  · rintro ⟨kv, hm, hp⟩
    exact ⟨kv, hm, by rw [wantKeyDiffers_congr current current' ks kv.1 kv.2 (h kv hm)]; exact hp⟩

lemma lookup_preserved_of_not_mem (rest : List (String × PyVal))
    (current : Dict) (k₀ : String) (c : PyVal)
    (hk : k₀ ∉ rest.map Prod.fst) :
    ∀ kv ∈ rest, lookup (setKey current k₀ c) kv.1 = lookup current kv.1 := by
  intro kv hm
  have : kv.1 ≠ k₀ := by
    intro he
    exact hk (he ▸ List.mem_map_of_mem Prod.fst hm)
  exact lookup_setKey_ne current k₀ kv.1 c this

/-- `has_changed` returns `true` exactly when some desired field, passing
the `only_keys` filter and present in the observed record, differs after
the coercion the source applies. -/
lemma has_changed_true_iff (want : List (String × PyVal)) :
    ∀ (current : Dict) (ks : List String) (b : Bool) (d' : Dict),
      (want.map Prod.fst).Nodup →
      has_changed want current ks = .ok (b, d') →
      (b = true ↔ wantDiffersIn want current ks) := by
  induction want with
  | nil =>
    intro current ks b d' _ h
    simp only [has_changed, Except.ok.injEq, Prod.mk.injEq] at h
    rw [← h.1]
    simp [wantDiffersIn_nil]
  | cons hd rest ih =>
    obtain ⟨k₀, v⟩ := hd
    intro current ks b d' hnd h
    rw [List.map_cons, List.nodup_cons] at hnd
    rw [wantDiffersIn_cons]
    simp only [has_changed] at h
    split at h
    · rename_i h1
      rw [ih current ks b d' hnd.2 h]
      have hfalse : wantKeyDiffers current ks k₀ v = false := by
        simp [wantKeyDiffers, h1.1, h1.2]
      simp [hfalse]
    · rename_i h1
      split at h
      · rename_i h2
        rw [ih current ks b d' hnd.2 h]
        have hfalse : wantKeyDiffers current ks k₀ v = false := by
          simp [wantKeyDiffers, h2]
        simp [hfalse]
      · rename_i h2
        split at h
        · rename_i cur hcur
          split at h
          · rename_i c hco
            split at h
            · rename_i hpe
              rw [ih (setKey current k₀ c) ks b d' hnd.2 h,
                wantDiffersIn_congr rest current (setKey current k₀ c) ks
                  (lookup_preserved_of_not_mem rest current k₀ c hnd.1)]
              have hfalse : wantKeyDiffers current ks k₀ v = false := by
                simp [wantKeyDiffers, hcur, hco, hpe]
              simp [hfalse]
            · rename_i hpe
              simp only [Except.ok.injEq, Prod.mk.injEq] at h
              rw [← h.1]
              have htrue : wantKeyDiffers current ks k₀ v = true := by
                push_neg at h1
                rw [Bool.not_eq_true] at hpe
                rcases Decidable.em (ks = []) with hks | hks
                · simp [wantKeyDiffers, hcur, hco, hpe, hks, h2]
                · simp [wantKeyDiffers, hcur, hco, hpe, hks, h1 hks, h2]
              simp [htrue]
          · exact absurd h (by simp)
        · rename_i hcur
          rw [ih current ks b d' hnd.2 h]
          have hfalse : wantKeyDiffers current ks k₀ v = false := by
            simp [wantKeyDiffers, hcur]
          simp [hfalse]

/-- When `has_changed` completes with `false` it has visited every desired
field, writing the coerced observed value back in place for each int/str
field passing the filter and present in the record. -/
lemma has_changed_false_writes (want : List (String × PyVal)) :
    ∀ (current : Dict) (ks : List String) (d' : Dict),
      (want.map Prod.fst).Nodup →
      has_changed want current ks = .ok (false, d') →
      ∀ kv ∈ want, (ks = [] ∨ kv.1 ∈ ks) →
        (isinstInt kv.2 || isinstStr kv.2) = true →
        ∀ cur, lookup current kv.1 = some cur →
          ∃ c, coerceCurrent kv.2 cur = some c ∧ lookup d' kv.1 = some c := by
  induction want with
  | nil =>
    intro current ks d' _ _ kv hm
    exact absurd hm (List.not_mem_nil kv)
  | cons hd rest ih =>
    obtain ⟨k₀, v⟩ := hd
    intro current ks d' hnd h kv hm hfilter hinst cur hcur
    rw [List.map_cons, List.nodup_cons] at hnd
    rcases List.mem_cons.mp hm with he | hm'
    · -- kv is the head field
      subst he
      simp only [has_changed, hcur] at h
      split at h
      · rename_i h1
        rcases hfilter with hks | hks
        · exact absurd hks h1.1
        · exact absurd hks h1.2
      · split at h
        · rename_i h2
          rw [h2] at hinst
          simp only [isinstInt, isinstStr, Bool.or_self] at hinst
          exact absurd hinst (by simp)
        · split at h
          · rename_i c hco
            refine ⟨c, hco, ?_⟩
            split at h
            · rw [has_changed_frame rest (setKey current k₀ c) ks false d' h k₀ hnd.1]
              exact lookup_setKey_self current k₀ c
            · exact absurd h (by simp)
          · exact absurd h (by simp)
    · -- kv is in the tail
      have hkmem : kv.1 ∈ rest.map Prod.fst := List.mem_map_of_mem Prod.fst hm'
      have hne : kv.1 ≠ k₀ := fun he => hnd.1 (he ▸ hkmem)
      simp only [has_changed] at h
      split at h
      · exact ih current ks d' hnd.2 h kv hm' hfilter hinst cur hcur
      · split at h
        · exact ih current ks d' hnd.2 h kv hm' hfilter hinst cur hcur
        · split at h
          · rename_i c₀ hcur₀
            split at h
            · rename_i c hco
              split at h
              · refine ih (setKey current k₀ c) ks d' hnd.2 h kv hm' hfilter hinst cur ?_
                rw [lookup_setKey_ne current k₀ kv.1 c hne]
                exact hcur
              · exact absurd h (by simp)
            · exact absurd h (by simp)
          · exact ih current ks d' hnd.2 h kv hm' hfilter hinst cur hcur

/-- When `has_changed` returns `true` it does so at the first differing
field: there is a split of `want` into a non-differing prefix, the first
mismatch, and an unexamined suffix whose keys are untouched in the
returned record. -/
lemma has_changed_true_shortcircuit (want : List (String × PyVal)) :
    ∀ (current : Dict) (ks : List String) (d' : Dict),
      (want.map Prod.fst).Nodup →
      has_changed want current ks = .ok (true, d') →
      ∃ pre kv suf, want = pre ++ kv :: suf ∧
        wantKeyDiffers current ks kv.1 kv.2 = true ∧
        (∀ e ∈ pre, wantKeyDiffers current ks e.1 e.2 = false) ∧
        (∀ k, k ∉ (pre ++ [kv]).map Prod.fst → lookup d' k = lookup current k) := by
  induction want with
  | nil =>
    intro current ks d' _ h
    simp [has_changed] at h
  | cons hd rest ih =>
    obtain ⟨k₀, v⟩ := hd
    intro current ks d' hnd h
    rw [List.map_cons, List.nodup_cons] at hnd
    simp only [has_changed] at h
    split at h
    · rename_i h1
      obtain ⟨pre, kv, suf, heq, hkv, hpre, hframe⟩ := ih current ks d' hnd.2 h
      refine ⟨(k₀, v) :: pre, kv, suf, by rw [heq]; rfl, hkv, ?_, ?_⟩
      · intro e he
        rcases List.mem_cons.mp he with he₀ | he₁
        · subst he₀
          simp [wantKeyDiffers, h1.1, h1.2]
        · exact hpre e he₁
      · intro k hk
        refine hframe k ?_
        intro hk'
        exact hk (by simpa using Or.inr (by simpa using hk'))
    · rename_i h1
      split at h
      · rename_i h2
        obtain ⟨pre, kv, suf, heq, hkv, hpre, hframe⟩ := ih current ks d' hnd.2 h
        refine ⟨(k₀, v) :: pre, kv, suf, by rw [heq]; rfl, hkv, ?_, ?_⟩
        · intro e he
          rcases List.mem_cons.mp he with he₀ | he₁
          · subst he₀
            simp [wantKeyDiffers, h2]
          · exact hpre e he₁
        · intro k hk
          refine hframe k ?_
          intro hk'
          exact hk (by simpa using Or.inr (by simpa using hk'))
      · rename_i h2
        split at h
        · rename_i cur hcur
          split at h
          · rename_i c hco
            split at h
            · rename_i hpe
              obtain ⟨pre, kv, suf, heq, hkv, hpre, hframe⟩ :=
                ih (setKey current k₀ c) ks d' hnd.2 h
              have hsub : ∀ e ∈ rest, lookup (setKey current k₀ c) e.1 = lookup current e.1 :=
                lookup_preserved_of_not_mem rest current k₀ c hnd.1
              have hkvmem : kv ∈ rest := by
                rw [heq]
                simp
              refine ⟨(k₀, v) :: pre, kv, suf, by rw [heq]; rfl, ?_, ?_, ?_⟩
              · rw [← wantKeyDiffers_congr current (setKey current k₀ c) ks kv.1 kv.2
                  (hsub kv hkvmem)]
                exact hkv
              · intro e he
                rcases List.mem_cons.mp he with he₀ | he₁
                · subst he₀
                  simp [wantKeyDiffers, hcur, hco, hpe]
                · have hemem : e ∈ rest := by
                    rw [heq]
                    exact List.mem_append_left _ he₁
                  rw [← wantKeyDiffers_congr current (setKey current k₀ c) ks e.1 e.2
                    (hsub e hemem)]
                  exact hpre e he₁
              · intro k hk
                have hkne : k ≠ k₀ := by
                  intro he
                  exact hk (by simp [he])
                have : k ∉ (pre ++ [kv]).map Prod.fst := by
                  intro hk'
                  exact hk (by simpa using Or.inr (by simpa using hk'))
                rw [hframe k this, lookup_setKey_ne current k₀ k c hkne]
            · rename_i hpe
              simp only [Except.ok.injEq, Prod.mk.injEq, true_and] at h
              refine ⟨[], (k₀, v), rest, rfl, ?_, by simp, ?_⟩
              · push_neg at h1
                rw [Bool.not_eq_true] at hpe
                rcases Decidable.em (ks = []) with hks | hks
                · simp [wantKeyDiffers, hcur, hco, hpe, hks, h2]
                · simp [wantKeyDiffers, hcur, hco, hpe, hks, h1 hks, h2]
              · intro k hk
                simp only [List.nil_append, List.map_cons, List.map_nil,
                  List.mem_singleton] at hk
                rw [← h, lookup_setKey_ne current k₀ k c hk]
          · exact absurd h (by simp)
        · rename_i hcur
          obtain ⟨pre, kv, suf, heq, hkv, hpre, hframe⟩ := ih current ks d' hnd.2 h
          refine ⟨(k₀, v) :: pre, kv, suf, by rw [heq]; rfl, hkv, ?_, ?_⟩
          · intro e he
            rcases List.mem_cons.mp he with he₀ | he₁
            · subst he₀
              simp [wantKeyDiffers, hcur]
            · exact hpre e he₁
          · intro k hk
            refine hframe k ?_
            intro hk'
            exact hk (by simpa using Or.inr (by simpa using hk'))

example : has_changed [("a", .int 2)] [("a", .str "3")] []
    = .ok (true, [("a", .int 3)]) := by decide

example : has_changed [("a", .int 2)] [("a", .str "2")] []
    = .ok (false, [("a", .int 2)]) := by decide

example : has_changed [("a", .str "x")] [("a", .int 7)] []
    = .ok (true, [("a", .str "7")]) := by decide

/-- C4: `has_changed(want, current, only_keys)` returns `true` iff some
field of `want` with a non-absent value, passing the `only_keys` filter
and present in `current`, differs after coercion to the desired value's
representation (ints as integers, strings as text); it returns `false`
for an empty `want`, and a `true` result arises at the first differing
field, with every field after it left unexamined and unwritten. -/
theorem C4_has_changed_correct (want : List (String × PyVal)) (current : Dict)
    (ks : List String) (b : Bool) (d' : Dict)
    (hnd : (want.map Prod.fst).Nodup)
    (h : has_changed want current ks = .ok (b, d')) :
    (b = true ↔ wantDiffersIn want current ks) ∧
    (want = [] → b = false) ∧
    (b = true → ∃ pre kv suf, want = pre ++ kv :: suf ∧
        wantKeyDiffers current ks kv.1 kv.2 = true ∧
        (∀ e ∈ pre, wantKeyDiffers current ks e.1 e.2 = false) ∧
        (∀ k, k ∉ (pre ++ [kv]).map Prod.fst → lookup d' k = lookup current k)) := by
  refine ⟨has_changed_true_iff want current ks b d' hnd h, ?_, ?_⟩
  · rintro rfl
    simp only [has_changed, Except.ok.injEq, Prod.mk.injEq] at h
    exact h.1.symm
  · intro hb
    subst hb
    exact has_changed_true_shortcircuit want current ks d' hnd h

theorem C4_has_changed_correct_witness :
    wantDiffersIn [("algorithm", PyVal.str "roundrobin")]
      [("algorithm", PyVal.str "source"), ("id", PyVal.str "r1")] [] :=
  ((C4_has_changed_correct [("algorithm", PyVal.str "roundrobin")]
      [("algorithm", PyVal.str "source"), ("id", PyVal.str "r1")] [] true
      [("algorithm", PyVal.str "source"), ("id", PyVal.str "r1")]
      (by decide) (by decide)).1).mp rfl

/-- C9 counterexample: the claim says every int/str field of `want`
present in the observed record is written back coerced, but `has_changed`
stops at the first mismatch: with a mismatch at `"a"`, the field `"b"`
(desired int `2`, observed `"2"`) keeps its uncoerced string value. -/
theorem C9_counterexample :
    has_changed [("a", PyVal.int 1), ("b", PyVal.int 2)]
        [("a", PyVal.str "5"), ("b", PyVal.str "2")] []
      = .ok (true, [("a", PyVal.int 5), ("b", PyVal.str "2")]) ∧
    ("b", PyVal.int 2) ∈ [("a", PyVal.int 1), ("b", PyVal.int 2)] ∧
    isinstInt (PyVal.int 2) = true ∧
    lookup [("a", PyVal.str "5"), ("b", PyVal.str "2")] "b" = some (PyVal.str "2") ∧
    lookup [("a", PyVal.int 5), ("b", PyVal.str "2")] "b" ≠ some (PyVal.int 2) := by
  decide

/-- C9 amended: `has_changed` is not side-effect free — when it is called
without an `only_keys` filter and returns `false`, every field whose
desired value is an int or a str and which is present in the observed
record has been overwritten in place with the coerced value (when it
returns `true` this holds only for the fields examined up to the first
mismatch), so the caller's observed dictionary may differ after the
call. -/
theorem C9_has_changed_mutates (want : List (String × PyVal)) (current d' : Dict)
    (hnd : (want.map Prod.fst).Nodup)
    (h : has_changed want current [] = .ok (false, d')) :
    ∀ kv ∈ want, (isinstInt kv.2 || isinstStr kv.2) = true →
      ∀ cur, lookup current kv.1 = some cur →
        ∃ c, coerceCurrent kv.2 cur = some c ∧ lookup d' kv.1 = some c :=
  fun kv hm => has_changed_false_writes want current [] d' hnd h kv hm (Or.inl rfl)

/-- C3: for desired set A and observed set B, the reconciler computes
toRemove = B \ A and toAdd = A \ B (for tags and for member ids alike);
reconcile(A, A) yields empty lists, and applying remove-then-add to B
yields exactly the members of A. -/
theorem C3_reconcile_correct (A B : List Tag) (W E : List String) :
    (∀ t, t ∈ tags_that_should_not_exist B A ↔ t ∈ B ∧ t ∉ A) ∧
    (∀ t, t ∈ tags_that_should_exist_or_be_updated B A ↔ t ∈ A ∧ t ∉ B) ∧
    (∀ i, i ∈ member_ids_to_remove W E ↔ i ∈ E ∧ i ∉ W) ∧
    (∀ i, i ∈ member_ids_to_assign W E ↔ i ∈ W ∧ i ∉ E) ∧
    tags_that_should_not_exist A A = [] ∧
    tags_that_should_exist_or_be_updated A A = [] ∧
    member_ids_to_remove W W = [] ∧
    member_ids_to_assign W W = [] ∧
    (∀ t, t ∈ B.filter (fun t => decide (t ∉ tags_that_should_not_exist B A)) ++
            tags_that_should_exist_or_be_updated B A ↔ t ∈ A) := by
  refine ⟨?_, ?_, ?_, ?_, ?_, ?_, ?_, ?_, ?_⟩
  · intro t
    simp [tags_that_should_not_exist, List.mem_filter]
  · intro t
    simp [tags_that_should_exist_or_be_updated, List.mem_filter]
  · intro i
    simp [member_ids_to_remove, List.mem_filter]
  · intro i
    simp [member_ids_to_assign, List.mem_filter]
  · simp [tags_that_should_not_exist, List.filter_eq_nil_iff]
  · simp [tags_that_should_exist_or_be_updated, List.filter_eq_nil_iff]
  · simp [member_ids_to_remove, List.filter_eq_nil_iff]
  · simp [member_ids_to_assign, List.filter_eq_nil_iff]
  · intro t
    simp only [List.mem_append, List.mem_filter, tags_that_should_not_exist,
      tags_that_should_exist_or_be_updated, decide_eq_true_eq]
    by_cases hA : t ∈ A <;> by_cases hB : t ∈ B <;> simp [hA, hB]

theorem C9_has_changed_mutates_witness :
    ∃ c, coerceCurrent (PyVal.int 1) (PyVal.str "1") = some c ∧
      lookup [("a", PyVal.int 1)] "a" = some c :=
  C9_has_changed_mutates [("a", PyVal.int 1)] [("a", PyVal.str "1")]
    [("a", PyVal.int 1)] (by decide) (by decide) ("a", PyVal.int 1)
    (by decide) (by decide) (PyVal.str "1") (by decide)

lemma callsPhaseOrdered_nil (p q : ApiCall → Bool) :
    callsPhaseOrdered p q [] := fun i => i.elim0

lemma callsPhaseOrdered_append (p q : ApiCall → Bool) (l₁ l₂ : List ApiCall)
    (h₁ : ∀ x ∈ l₁, q x = false) (h₂ : ∀ x ∈ l₂, p x = false) :
    callsPhaseOrdered p q (l₁ ++ l₂) := by
  intro i j hp hq
  rcases Nat.lt_or_ge (j : ℕ) l₁.length with hj | hj
  · exfalso
    have hmem : (l₁ ++ l₂).get j ∈ l₁ := by
      rw [List.get_eq_getElem, List.getElem_append_left hj]
      exact List.getElem_mem hj
    rw [h₁ _ hmem] at hq
    exact Bool.false_ne_true hq
  · rcases Nat.lt_or_ge (i : ℕ) l₁.length with hi | hi
    · exact lt_of_lt_of_le hi hj
    · exfalso
      have hmem : (l₁ ++ l₂).get i ∈ l₂ := by
        rw [List.get_eq_getElem, List.getElem_append_right hi]
        exact List.getElem_mem _
      rw [h₂ _ hmem] at hp
      exact Bool.false_ne_true hp

lemma process_tags_delete_no_adds (cm ch : Bool) (tags : List Tag) :
    ∀ x ∈ (process_tags cm ch tags "delete").2, isAddCall x = false := by
  intro x hx
  unfold process_tags at hx
  split at hx
  · split at hx
    · exact absurd hx (List.not_mem_nil x)
    · split at hx
      · rename_i hop
        exact absurd hop (by decide)
      · rw [List.mem_singleton.mp hx]
        rfl
  · exact absurd hx (List.not_mem_nil x)

lemma process_tags_create_no_removes (cm ch : Bool) (tags : List Tag) :
    ∀ x ∈ (process_tags cm ch tags "create").2, isRemoveCall x = false := by
  intro x hx
  unfold process_tags at hx
  split at hx
  · split at hx
    · exact absurd hx (List.not_mem_nil x)
    · split at hx
      · rw [List.mem_singleton.mp hx]
        rfl
      · rename_i hop
        exact absurd rfl hop
  · exact absurd hx (List.not_mem_nil x)

/-- C1 counterexample: with desired member `web01` and observed member
`web03`, `present_members` issues the assign call before the remove call,
so the remove-before-add policy fails for membership reconciliation. -/
theorem C1_counterexample :
    (present_members_calls false false (some ["web01"]) ["web03"]).2
      = [ApiCall.assignToLoadBalancerRule ["web01"],
         ApiCall.removeFromLoadBalancerRule ["web03"]] ∧
    ¬ removesBeforeAdds
        (present_members_calls false false (some ["web01"]) ["web03"]).2 := by
  decide

/-- C1 amended: tag reconciliation issues every delete before any create,
but membership reconciliation issues the assign call before the remove
call. -/
theorem C1_remove_add_order :
    (∀ (cm ch : Bool) (resource : Dict) (existing : List Tag)
        (tp : Option (List Tag)),
      removesBeforeAdds (ensure_tags_calls cm ch resource existing tp).2) ∧
    (∀ (cm ch : Bool) (w : Option (List String)) (e : List String),
      addsBeforeRemoves (present_members_calls cm ch w e).2) := by
  constructor
  · intro cm ch resource existing tp
    unfold ensure_tags_calls removesBeforeAdds
    split
    · cases tp with
      | none => exact callsPhaseOrdered_nil _ _
      | some tags =>
        exact callsPhaseOrdered_append _ _ _ _
          (process_tags_delete_no_adds cm ch _)
          (process_tags_create_no_removes cm _ _)
    · exact callsPhaseOrdered_nil _ _
  · intro cm ch w e
    unfold present_members_calls addsBeforeRemoves
    cases w with
    | none => exact callsPhaseOrdered_nil _ _
    | some wanted =>
      apply callsPhaseOrdered_append
      · intro x hx
        split at hx
        · rw [List.mem_singleton.mp hx]
          rfl
        · exact absurd hx (List.not_mem_nil x)
      · intro x hx
        split at hx
        · rw [List.mem_singleton.mp hx]
          rfl
        · exact absurd hx (List.not_mem_nil x)

/-- C2: check mode does not suppress the membership calls —
`present_members` never consults `check_mode`, so with check mode enabled
it still issues the assign and remove calls (while computing
`changed = true` as live); by contrast the tag, create, update, delete
and disassociate paths do skip their mutating call in check mode. -/
theorem C2_check_mode_still_mutates :
    present_members_calls true false (some ["web01"]) ["web03"]
      = (true, [ApiCall.assignToLoadBalancerRule ["web01"],
                ApiCall.removeFromLoadBalancerRule ["web03"]]) ∧
    (present_members_calls true false (some ["web01"]) ["web03"]).2 ≠ [] ∧
    (process_tags true false [("k", "v")] "create").2 = [] ∧
    (create_lb_rule_calls true false).2 = [] ∧
    (absent_lb_rule_calls true false (some [("id", PyVal.str "r1")])).2.1 = [] ∧
    (remove_template_calls true false (some [("id", PyVal.str "t1")])).2.1 = [] ∧
    (disassociate_ip_address_calls true false (some "1.2.3.4")
        (some [[("id", PyVal.str "i1"), ("isstaticnat", PyVal.bool false)]])).2.1
      = [] := by
  decide

lemma poll_job_loop_cons (job : Dict) (key : Option String)
    (r : JobResponse) (rest : List JobResponse) :
    poll_job_loop job key (r :: rest)
      = match r.jobresult with
        | some jr =>
          if r.jobstatus ≠ 0 then (some (poll_job_terminal job key jr), 1)
          else ((poll_job_loop job key rest).1, (poll_job_loop job key rest).2 + 1)
        | Option.none =>
          ((poll_job_loop job key rest).1, (poll_job_loop job key rest).2 + 1) := rfl

lemma poll_job_loop_pending (job : Dict) (key : Option String)
    (pre : List JobResponse) (hpre : ∀ x ∈ pre, isTerminal x = false)
    (rest : List JobResponse) :
    poll_job_loop job key (pre ++ rest)
      = ((poll_job_loop job key rest).1,
         (poll_job_loop job key rest).2 + pre.length) := by
  induction pre with
  | nil => simp
  | cons r pre ih =>
    have hr : isTerminal r = false := hpre r (List.mem_cons_self r pre)
    have hpre' : ∀ x ∈ pre, isTerminal x = false :=
      fun x hx => hpre x (List.mem_cons_of_mem r hx)
    rw [List.cons_append, poll_job_loop_cons]
    cases hjr : r.jobresult with
    | none =>
      rw [ih hpre']
      simp [Nat.add_assoc]
    | some jr =>
      have hst : r.jobstatus = 0 := by
        unfold isTerminal at hr
        rw [hjr] at hr
        simpa using hr
      dsimp only
      rw [if_neg (by simp [hst]), ih hpre']
      simp [Nat.add_assoc]

lemma poll_job_loop_terminal_head (job : Dict) (key : Option String)
    (r : JobResponse) (jr : Dict) (rest : List JobResponse)
    (hjr : r.jobresult = some jr) (hst : r.jobstatus ≠ 0) :
    poll_job_loop job key (r :: rest)
      = (some (poll_job_terminal job key jr), 1) := by
  rw [poll_job_loop_cons, hjr]
  dsimp only
  rw [if_pos hst]

/-- C5 counterexample: a submit record with a job id whose first poll is
terminal without error and with no result key requested — the source
returns the original submit record, not the full job result. -/
theorem C5_counterexample :
    poll_job [("jobid", PyVal.str "42")] Option.none
        [⟨1, some [("x", PyVal.int 7)]⟩]
      = (some (.ok (.dict [("jobid", PyVal.str "42")])), 1) ∧
    PollOut.dict [("jobid", PyVal.str "42")]
      ≠ PollOut.dict [("x", PyVal.int 7)] := by
  decide

/-- C5 amended: a submit record without a job id is returned unchanged
with no status query; otherwise, on the first terminal poll (after any
number of pending polls) an `errortext` in the job result fails the run
with that message after exactly that many queries; a terminal poll
without error returns the named sub-object when a truthy result key was
requested and present in the job result, and the original submit record
unchanged otherwise. -/
theorem C5_poll_job_behavior :
    (∀ (job : Dict) (key : Option String) (rs : List JobResponse),
      (lookup job "jobid").isSome = false →
      poll_job job key rs = (some (.ok (.dict job)), 0)) ∧
    (∀ (job : Dict) (key : Option String) (pre : List JobResponse)
        (r : JobResponse) (jr : Dict) (rest : List JobResponse) (e : PyVal),
      (lookup job "jobid").isSome = true →
      (∀ x ∈ pre, isTerminal x = false) →
      r.jobresult = some jr → r.jobstatus ≠ 0 →
      lookup jr "errortext" = some e →
      poll_job job key (pre ++ r :: rest)
        = (some (.error (pyStrCast e)), pre.length + 1)) ∧
    (∀ (job : Dict) (key : Option String) (pre : List JobResponse)
        (r : JobResponse) (jr : Dict) (rest : List JobResponse),
      (lookup job "jobid").isSome = true →
      (∀ x ∈ pre, isTerminal x = false) →
      r.jobresult = some jr → r.jobstatus ≠ 0 →
      lookup jr "errortext" = Option.none →
      poll_job job key (pre ++ r :: rest)
        = (some (.ok (if strTruthy key then
              match lookup jr (key.getD "") with
              | some v => PollOut.val v
              | Option.none => PollOut.dict job
            else PollOut.dict job)), pre.length + 1)) := by
  refine ⟨?_, ?_, ?_⟩
  · intro job key rs hjob
    unfold poll_job
    rw [hjob]
    rfl
  · intro job key pre r jr rest e hjob hpre hjr hst herr
    unfold poll_job
    rw [hjob, if_pos rfl, poll_job_loop_pending job key pre hpre (r :: rest),
      poll_job_loop_terminal_head job key r jr rest hjr hst]
    unfold poll_job_terminal
    rw [herr]
    simp [Nat.add_comm]
  · intro job key pre r jr rest hjob hpre hjr hst herr
    unfold poll_job
    rw [hjob, if_pos rfl, poll_job_loop_pending job key pre hpre (r :: rest),
      poll_job_loop_terminal_head job key r jr rest hjr hst]
    unfold poll_job_terminal
    rw [herr]
    simp only [Prod.mk.injEq, Option.some.injEq]
    constructor
    · split
      · cases lookup jr (key.getD "") <;> rfl
      · rfl
    · omega

theorem C5_poll_job_behavior_witness :
    poll_job [("a", PyVal.int 1)] Option.none []
      = (some (.ok (.dict [("a", PyVal.int 1)])), 0) ∧
    poll_job [("jobid", PyVal.str "1")] Option.none
        [⟨0, Option.none⟩, ⟨1, some [("errortext", PyVal.str "X")]⟩]
      = (some (.error "X"), 2) ∧
    poll_job [("jobid", PyVal.str "1")] (some "ipaddress")
        [⟨1, some [("ipaddress", PyVal.str "1.2.3.4")]⟩]
      = (some (.ok (.val (PyVal.str "1.2.3.4"))), 1) := by
  refine ⟨?_, ?_, ?_⟩
  · exact C5_poll_job_behavior.1 [("a", PyVal.int 1)] Option.none [] (by decide)
  · exact C5_poll_job_behavior.2.1 [("jobid", PyVal.str "1")] Option.none
      [⟨0, Option.none⟩] ⟨1, some [("errortext", PyVal.str "X")]⟩
      [("errortext", PyVal.str "X")] [] (PyVal.str "X")
      (by decide) (by decide) rfl (by decide) (by decide)
  · exact C5_poll_job_behavior.2.2 [("jobid", PyVal.str "1")] (some "ipaddress")
      [] ⟨1, some [("ipaddress", PyVal.str "1.2.3.4")]⟩
      [("ipaddress", PyVal.str "1.2.3.4")] []
      (by decide) (by decide) rfl (by decide) (by decide)

/-- C6: `absent` on a missing resource.  The LB rule and template modules
are clean no-ops (`changed` stays the initial `false`, no delete call),
but the IP address module crashes: `get_ip_address` leaves the cache
`None`, `_get_by_key` substitutes `{}` — which `is None` does not catch —
and `ip_address['isstaticnat']` raises `KeyError`. -/
theorem C6_absent_on_missing_resource :
    absent_lb_rule_calls false init_result_changed Option.none
      = (false, [], Option.none) ∧
    remove_template_calls false init_result_changed Option.none
      = (false, [], Option.none) ∧
    ipaddr_get_ip_address Option.none (some "1.2.3.4") Option.none
      = .ok (PyObj.dict []) ∧
    disassociate_ip_address_calls false init_result_changed
        (some "1.2.3.4") Option.none
      = (false, [], .error "KeyError: isstaticnat") := by
  decide

/-- C7: the second resolution of a kind issues no further remote listing,
and for zones it returns the identical cached record — but the cache-hit
branch of `get_os_type` returns `self._get_by_key(key, self.zone)`, so the
second OS type resolution returns the (empty) zone cache instead of the
cached OS type record. -/
theorem C7_memoization_second_lookup :
    zoneRun₁.2.2 = 1 ∧ zoneRun₂.2.2 = 0 ∧
    zoneRun₁.2.1 = .ok (PyObj.dict zoneRec) ∧
    zoneRun₂.2.1 = zoneRun₁.2.1 ∧
    osTypeRun₁.2.2 = 1 ∧ osTypeRun₂.2.2 = 0 ∧
    osTypeRun₁.2.1 = .ok (PyObj.dict osTypeRec) ∧
    osTypeRun₂.2.1 = .ok (PyObj.dict []) ∧
    osTypeRun₂.2.1 ≠ osTypeRun₁.2.1 := by
  decide

/-- C8 counterexample: two candidates both match the requested identifier
`dev`, yet `get_domain` succeeds with the first rather than failing — the
source never checks that exactly one candidate matches. -/
theorem C8_counterexample :
    domainPathMatches "dev" domA = true ∧
    domainPathMatches "dev" domB = true ∧
    (get_domain Option.none (some "dev") (some [domA, domB])).1
      = .ok (PyObj.dict domA) := by
  decide

/-- C8 amended: `get_domain` compares each candidate domain's lower-cased
path with the lower-cased requested identifier and its `root/`- and
`root`-prefixed forms; the first matching candidate wins (even when
several match) and resolution fails only when no candidate matches. -/
theorem C8_get_domain_first_path_match :
    (∀ (p : String) (pre post : List Dict) (d : Dict),
      p ≠ "" →
      (∀ x ∈ pre, domainPathMatches p x = false) →
      domainPathMatches p d = true →
      (get_domain Option.none (some p) (some (pre ++ d :: post))).1
        = .ok (PyObj.dict d)) ∧
    (∀ (p : String) (ds : List Dict),
      p ≠ "" →
      (∀ x ∈ ds, domainPathMatches p x = false) →
      (get_domain Option.none (some p) (some ds)).1
        = .error ("Domain not found: " ++ p)) ∧
    (∀ (q : String) (d : Dict) (path : String),
      lookup d "path" = some (PyVal.str path) →
      (domainPathMatches q d = true ↔
        (pyStrLower path = pyStrLower q ∨
         pyStrLower path = "root/" ++ pyStrLower q ∨
         pyStrLower path = "root" ++ pyStrLower q))) := by
  refine ⟨?_, ?_, ?_⟩
  · intro p pre post d hp hpre hd
    unfold get_domain
    rw [if_pos (by simpa [strTruthy] using hp)]
    dsimp only [Option.getD]
    have hfind : (pre ++ d :: post).find? (domainPathMatches p) = some d := by
      induction pre with
      | nil => simp [List.find?_cons_of_pos, hd]
      | cons x pre ih =>
        rw [List.cons_append,
          List.find?_cons_of_neg _ (by simp [hpre x (List.mem_cons_self x pre)])]
        exact ih (fun y hy => hpre y (List.mem_cons_of_mem x hy))
    rw [hfind]
    rfl
  · intro p ds hp hall
    unfold get_domain
    rw [if_pos (by simpa [strTruthy] using hp)]
    dsimp only [Option.getD]
    have hfind : ds.find? (domainPathMatches p) = Option.none := by
      rw [List.find?_eq_none]
      intro x hx
      simp [hall x hx]
    rw [hfind]
  · intro q d path hpath
    unfold domainPathMatches
    rw [hpath]
    simp only [Bool.or_eq_true, beq_iff_eq]
    tauto

theorem C8_get_domain_first_path_match_witness :
    (get_domain Option.none (some "dev") (some [domC, domA])).1
      = .ok (PyObj.dict domA) ∧
    (get_domain Option.none (some "qa") (some [domC, domA])).1
      = .error ("Domain not found: " ++ "qa") ∧
    (domainPathMatches "dev" domA = true ↔
      (pyStrLower "ROOT/dev" = pyStrLower "dev" ∨
       pyStrLower "ROOT/dev" = "root/" ++ pyStrLower "dev" ∨
       pyStrLower "ROOT/dev" = "root" ++ pyStrLower "dev")) := by
  refine ⟨?_, ?_, ?_⟩
  · exact C8_get_domain_first_path_match.1 "dev" [domC] [] domA
      (by decide) (by decide) (by decide)
  · exact C8_get_domain_first_path_match.2.1 "qa" [domC, domA]
      (by decide) (by decide)
  · exact C8_get_domain_first_path_match.2.2 "dev" domA "ROOT/dev" (by decide)

lemma process_tags_changed_mono (cm : Bool) (tags : List Tag) (op : String) :
    (process_tags cm true tags op).1 = true := by
  unfold process_tags
  split <;> rfl

/-- C10: the run's `changed` flag is monotone — it starts `false`, and
every embedded operation fed `changed = true` still reports
`changed = true`; no operation resets it. -/
theorem C10_changed_monotone :
    init_result_changed = false ∧
    (∀ (cm : Bool) (tags : List Tag) (op : String),
      (process_tags cm true tags op).1 = true) ∧
    (∀ (cm : Bool) (r : Dict) (ex : List Tag) (tp : Option (List Tag)),
      (ensure_tags_calls cm true r ex tp).1 = true) ∧
    (∀ (cm : Bool) (w : Option (List String)) (e : List String),
      (present_members_calls cm true w e).1 = true) ∧
    (∀ cm : Bool, (create_lb_rule_calls cm true).1 = true) ∧
    (∀ (cm : Bool) (a d : PyVal) (rule : Dict),
      (update_lb_rule_calls cm true a d rule).1 = true) ∧
    (∀ (cm : Bool) (rule : Option Dict),
      (absent_lb_rule_calls cm true rule).1 = true) ∧
    (∀ (cm : Bool) (t : Option Dict),
      (remove_template_calls cm true t).1 = true) ∧
    (∀ cm : Bool, (associate_ip_address_calls cm true).1 = true) ∧
    (∀ (cm : Bool) (p : Option String) (l : Option (List Dict)),
      (disassociate_ip_address_calls cm true p l).1 = true) := by
  refine ⟨rfl, process_tags_changed_mono, ?_, ?_, fun _ => rfl, ?_, ?_, ?_,
    fun _ => rfl, ?_⟩
  · intro cm r ex tp
    unfold ensure_tags_calls
    split
    · cases tp with
      | none => rfl
      | some tags =>
        dsimp only
        rw [process_tags_changed_mono cm _ "delete"]
        exact process_tags_changed_mono cm _ "create"
    · rfl
  · intro cm w e
    unfold present_members_calls
    cases w with
    | none => rfl
    | some wanted =>
      dsimp only
      split
      · rfl
      · split <;> rfl
  · intro cm a d rule
    unfold update_lb_rule_calls
    cases lookup rule "id" with
    | none => rfl
    | some idv =>
      dsimp only
      cases h : has_changed [("id", idv), ("algorithm", a), ("description", d)]
          rule [] with
      | error e => rfl
      | ok out =>
        cases out with
        | mk b rule' => cases b <;> rfl
  · intro cm rule
    cases rule <;> rfl
  · intro cm t
    cases t <;> rfl
  · intro cm p l
    unfold disassociate_ip_address_calls
    cases ipaddr_get_ip_address Option.none p l with
    | error m => rfl
    | ok o =>
      cases o with
      | none => rfl
      | val v => rfl
      | dict d =>
        dsimp only
        cases lookup d "isstaticnat" with
        | none => rfl
        | some v =>
          dsimp only
          split <;> rfl

end CloudStack
